import Mathlib

/-!
Shallow embedding of the client-side product data layer of the
vmodern-furniture-hub repository, together with proofs of the claims
about it.

Conventions of the embedding:
* JavaScript numbers are modelled as rationals (`ℚ`); integer counters,
  page numbers and identifiers as `Nat`.
* Database identifiers are opaque non-empty UUID strings in the source;
  they are modelled as `Nat`.  JavaScript truthiness applied to an
  identifier (or to `null`/`undefined`) is therefore exactly a null test
  and is modelled by `Option Nat`.
* JavaScript truthiness applied to a possibly-absent string (`s || null`,
  `s || undefined`) is falsy both on absence and on the empty string;
  the helper `jsStrOrNone` models this.
* Fallible or stateful code is modelled by explicit state passing: the
  database is a `DbState` record of row lists, and every mutation
  orchestrator is a function `DbState → ... → DbState`.
-/

/-- JS `s || null` / `s || undefined` on an optional string: absence and
the empty string are both falsy. -/
def jsStrOrNone : Option String → Option String
  | some s => if s = "" then none else some s
  | none => none

/-- JS `s || fallback` on a string: the empty string is falsy. -/
def jsStrOr (s fallback : String) : String :=
  if s = "" then fallback else s

/-! ## `calculateFinalPrice` (src/src/types/product.ts, lines 71–76)

```ts
export function calculateFinalPrice(originalPrice: number, discountPercent: number): number {
  if (!discountPercent || discountPercent <= 0) {
    return originalPrice;
  }
  return originalPrice * (1 - discountPercent / 100);
}
```

`!discountPercent` is true exactly on `0` (and `NaN`, which has no
rational counterpart), so over the rationals the guard is
`discountPercent ≤ 0`. -/

def calculateFinalPrice (originalPrice discountPercent : ℚ) : ℚ :=
  if discountPercent ≤ 0 then originalPrice
  else originalPrice * (1 - discountPercent / 100)

/-- C9: for every `priceOriginal ≥ 0` and `discountPercent ∈ [0,100]`,
`calculateFinalPrice` returns `priceOriginal` when the discount is `0`,
and `priceOriginal × (1 − discountPercent/100)` when it is positive. -/
theorem calculateFinalPrice_spec (p d : ℚ) (hp : 0 ≤ p) (hd0 : 0 ≤ d)
    (hd100 : d ≤ 100) :
    (d = 0 → calculateFinalPrice p d = p) ∧
    (0 < d → calculateFinalPrice p d = p * (1 - d / 100)) := by
  refine ⟨fun h => ?_, fun h => ?_⟩
  · simp [calculateFinalPrice, h]
  · rw [calculateFinalPrice, if_neg (by linarith)]

/-- Witness for C9 at `priceOriginal = 50`, `discountPercent = 20`. -/
theorem calculateFinalPrice_spec_witness :
    calculateFinalPrice 50 20 = 50 * (1 - 20 / 100) :=
  (calculateFinalPrice_spec 50 20 (by norm_num) (by norm_num)
    (by norm_num)).2 (by norm_num)

/-- C10: for every price and every `discountPercent ≤ 0` — including
negative values outside the documented domain — `calculateFinalPrice`
returns the original price unchanged: a negative discount is silently
treated as no discount, not as a surcharge. -/
theorem calculateFinalPrice_nonpositive_discount (p d : ℚ) (hd : d ≤ 0) :
    calculateFinalPrice p d = p := by
  simp [calculateFinalPrice, hd]

/-- Witness for C10 at `priceOriginal = 80`, `discountPercent = -5`. -/
theorem calculateFinalPrice_nonpositive_discount_witness :
    calculateFinalPrice 80 (-5) = 80 :=
  calculateFinalPrice_nonpositive_discount 80 (-5) (by norm_num)

/-! ## Database row types (src/unnamed/part_005, lines 7–49)

The raw row shapes of the four store collections.  UUID ids are `Nat`,
`display_order` is an `Int` (the JS comparator subtracts the two
orders), timestamps are opaque strings. -/

structure DbProduct where
  id : Nat
  name : String
  category : String
  product_type : Option String
  subcategory : Option String
  is_set : Bool
  part_of_set : Option Nat
  can_be_sold_separately : Bool
  description : String
  price_original : ℚ
  discount_percent : ℚ
  price_final : ℚ
  is_new : Bool
  tags : List String
  main_image_url : String
  created_at : String
  updated_at : String
deriving Repr, DecidableEq

structure DbProductImage where
  id : Nat
  product_id : Nat
  image_url : String
  display_order : Int
deriving Repr, DecidableEq

structure DbSetItem where
  id : Nat
  product_id : Nat
  name : String
  price : ℚ
  image_url : Option String
  display_order : Int
  child_product_id : Option Nat
deriving Repr, DecidableEq

structure DbSetItemImage where
  id : Nat
  set_item_id : Nat
  image_url : String
  display_order : Int
deriving Repr, DecidableEq

/-! ## Frontend entity types (`@/types/product`)

The denormalized `SetItem` and `Product` shapes assembled for the UI,
as consumed and produced by src/unnamed/part_005 (`dbToProduct` and the
mutation orchestrators). -/

structure SetItem where
  id : Nat
  name : String
  price : ℚ
  imageUrl : Option String
  imageUrls : Option (List String)
  childProductId : Option Nat
deriving Repr, DecidableEq

structure Product where
  id : Nat
  name : String
  category : String
  productType : Option String
  subcategory : Option String
  isSet : Bool
  partOfSet : Option Nat
  canBeSoldSeparately : Bool
  description : String
  priceOriginal : ℚ
  discountPercent : ℚ
  priceFinal : ℚ
  isNew : Bool
  tags : List String
  mainImageUrl : String
  imageUrls : Option (List String)
  setItems : Option (List SetItem)
  createdAt : String
  updatedAt : String
deriving Repr, DecidableEq

/-- JS `arr.sort((a, b) => key(a) - key(b))`: a stable ascending sort by
an integer key.  `Array.prototype.sort` is specified stable, and a
stable sort's output is determined by the key order, so Mathlib's stable
`insertionSort` models it exactly.  The JS sort reorders the array in
place; the callers below thread the sorted list as the array's
post-call contents. -/
def jsSortByOrder {α : Type} (key : α → Int) (l : List α) : List α :=
  List.insertionSort (fun a b => key a ≤ key b) l

/-- The result of `dbToProduct` together with the post-call contents of
the three array arguments (JS `sort` mutates `images` and `setItems` in
place; `setItemImages` is only read through `filter`, which copies). -/
structure DbToProductResult where
  product : Product
  imagesAfter : List DbProductImage
  setItemsAfter : List DbSetItem
  setItemImagesAfter : List DbSetItemImage
deriving Repr, DecidableEq

/-- `dbToProduct` (src/unnamed/part_005, lines 72–121): assemble one
denormalized `Product` from a product row, its image rows, its set-item
rows and their set-item-image rows. -/
def dbToProduct (dbProduct : DbProduct) (images : List DbProductImage)
    (setItems : List DbSetItem) (setItemImages : List DbSetItemImage) :
    DbToProductResult :=
  let imagesSorted := jsSortByOrder (·.display_order) images
  let imageUrls := imagesSorted.map (·.image_url)
  let setItemsSorted := jsSortByOrder (·.display_order) setItems
  let productSetItems : List SetItem := setItemsSorted.map (fun item =>
    let itemImages := (jsSortByOrder (·.display_order)
        (setItemImages.filter (fun img => img.set_item_id = item.id))).map
        (·.image_url)
    { id := item.id
      name := item.name
      price := item.price
      imageUrl := jsStrOrNone item.image_url
      imageUrls := if itemImages.length > 0 then some itemImages else none
      childProductId := item.child_product_id })
  { product :=
      { id := dbProduct.id
        name := dbProduct.name
        category := dbProduct.category
        productType := jsStrOrNone dbProduct.product_type
        subcategory := jsStrOrNone dbProduct.subcategory
        isSet := dbProduct.is_set
        partOfSet := dbProduct.part_of_set
        canBeSoldSeparately := dbProduct.can_be_sold_separately
        description := dbProduct.description
        priceOriginal := dbProduct.price_original
        discountPercent := dbProduct.discount_percent
        priceFinal := dbProduct.price_final
        isNew := dbProduct.is_new
        tags := dbProduct.tags
        mainImageUrl := dbProduct.main_image_url
        imageUrls := if imageUrls.length > 0 then some imageUrls else none
        setItems := if productSetItems.length > 0 then some productSetItems
          else none
        createdAt := dbProduct.created_at
        updatedAt := dbProduct.updated_at }
    imagesAfter := imagesSorted
    setItemsAfter := setItemsSorted
    setItemImagesAfter := setItemImages }

theorem jsSortByOrder_perm {α : Type} (key : α → Int) (l : List α) :
    (jsSortByOrder key l).Perm l :=
  List.perm_insertionSort _ l

theorem jsSortByOrder_sorted {α : Type} (key : α → Int) (l : List α) :
    (jsSortByOrder key l).Pairwise (fun a b => key a ≤ key b) := by
  haveI : IsTotal α (fun a b => key a ≤ key b) := ⟨fun a b => le_total _ _⟩
  haveI : IsTrans α (fun a b => key a ≤ key b) :=
    ⟨fun a b c hab hbc => le_trans hab hbc⟩
  exact List.sorted_insertionSort _ l

/-- A product row whose `main_image_url` column does not coincide with
any image row's URL. -/
def exMainRow : DbProduct :=
  { id := 1, name := "Set", category := "floor_sample", product_type := none,
    subcategory := none, is_set := false, part_of_set := none,
    can_be_sold_separately := true, description := "d", price_original := 10,
    discount_percent := 0, price_final := 10, is_new := false, tags := [],
    main_image_url := "row-main", created_at := "t0", updated_at := "t0" }

def exImg0 : DbProductImage :=
  { id := 11, product_id := 1, image_url := "img0", display_order := 0 }

def exImgA : DbProductImage :=
  { id := 21, product_id := 1, image_url := "a", display_order := 1 }

def exImgB : DbProductImage :=
  { id := 22, product_id := 1, image_url := "b", display_order := 0 }

/-- C4 counterexample: with one image row present, `dbToProduct` takes
`mainImageUrl` from the product row's `main_image_url` column, which
need not equal `imageUrls[0]`. -/
theorem dbToProduct_mainImageUrl_counterexample :
    (dbToProduct exMainRow [exImg0] [] []).product.imageUrls =
      some ["img0"] ∧
    (dbToProduct exMainRow [exImg0] [] []).product.mainImageUrl ≠ "img0" := by
  constructor
  · rfl
  · decide

/-- C4 (amended): `imageUrls` lists the image rows' URLs sorted by
ascending `display_order` (and is absent when there are no image rows),
but `mainImageUrl` is copied from the product row's `main_image_url`
column rather than from `imageUrls[0]`; the two agree only when that
column already equals the first sorted URL. -/
theorem dbToProduct_imageUrls_sorted (db : DbProduct)
    (images : List DbProductImage) (setItems : List DbSetItem)
    (setItemImages : List DbSetItemImage) :
    (∃ sortedRows : List DbProductImage,
        sortedRows.Perm images ∧
        sortedRows.Pairwise (fun a b => a.display_order ≤ b.display_order) ∧
        (dbToProduct db images setItems setItemImages).product.imageUrls =
          if images = [] then none
          else some (sortedRows.map (·.image_url))) ∧
    (dbToProduct db images setItems setItemImages).product.mainImageUrl =
      db.main_image_url := by
  refine ⟨⟨jsSortByOrder (·.display_order) images, jsSortByOrder_perm _ _,
    jsSortByOrder_sorted _ _, ?_⟩, rfl⟩
  have hlen : (jsSortByOrder (fun r => r.display_order) images).length =
      images.length := (jsSortByOrder_perm _ _).length_eq
  show (if ((jsSortByOrder (fun r => r.display_order) images).map
      (fun r => r.image_url)).length > 0 then _ else none) = _
  rcases eq_or_ne images [] with h | h
  · subst h
    have : jsSortByOrder (fun r : DbProductImage => r.display_order) [] = [] :=
      List.eq_nil_of_length_eq_zero hlen
    simp [this]
  · have hpos : 0 < images.length := List.length_pos.2 h
    rw [List.length_map, hlen, if_pos hpos, if_neg h]

/-- C5 counterexample: `dbToProduct` sorts the image-row array in
place, so an array passed in out of display order does not hold the
same elements in the same order after the call. -/
theorem dbToProduct_mutation_counterexample :
    (dbToProduct exMainRow [exImgA, exImgB] [] []).imagesAfter ≠
      [exImgA, exImgB] := by
  decide

/-- C5 (amended): `dbToProduct` reorders the image-row and set-item-row
arrays in place (their post-call contents are a permutation of the
pre-call contents — the stable ascending sort by display order), while
the set-item-image array is read only through a copying `filter` and is
left exactly as passed. -/
theorem dbToProduct_array_effects (db : DbProduct)
    (images : List DbProductImage) (setItems : List DbSetItem)
    (setItemImages : List DbSetItemImage) :
    (dbToProduct db images setItems setItemImages).imagesAfter.Perm images ∧
    (dbToProduct db images setItems setItemImages).setItemsAfter.Perm
      setItems ∧
    (dbToProduct db images setItems setItemImages).setItemImagesAfter =
      setItemImages :=
  ⟨jsSortByOrder_perm _ _, jsSortByOrder_perm _ _, rfl⟩

/-! ## `withRetry` (src/unnamed/part_005, lines 52–69)

```ts
async function withRetry<T>(fn, retries = 2, delay = 300): Promise<T> {
  let lastError: Error | null = null;
  for (let i = 0; i <= retries; i++) {
    try { return await fn(); }
    catch (err) {
      lastError = err as Error;
      if (i < retries) {
        await new Promise((resolve) => setTimeout(resolve, delay * (i + 1)));
      }
    }
  }
  throw lastError;
}
```

The asynchronous operation is modelled by the outcome of each of its
invocations: `fn i` is what the `(i+1)`-th call to the operation
returns.  The execution is summarised as a `RetryTrace`: the propagated
result, how many times the operation was invoked, and the sleep
durations in order. -/

structure RetryTrace (ε α : Type) where
  result : Except ε α
  invocations : Nat
  delays : List Nat

/-- The loop of `withRetry` from index `i`, with `fuel = retries - i`
remaining retries (so the loop guard `i < retries` is `fuel ≠ 0`). -/
def withRetryGo {ε α : Type} (fn : Nat → Except ε α) (delay : Nat) :
    Nat → Nat → RetryTrace ε α
  | i, 0 =>
    match fn i with
    | Except.ok a => { result := Except.ok a, invocations := 1, delays := [] }
    | Except.error e =>
      { result := Except.error e, invocations := 1, delays := [] }
  | i, fuel + 1 =>
    match fn i with
    | Except.ok a => { result := Except.ok a, invocations := 1, delays := [] }
    | Except.error _ =>
      let t := withRetryGo fn delay (i + 1) fuel
      { result := t.result, invocations := t.invocations + 1,
        delays := delay * (i + 1) :: t.delays }

/-- `withRetry` with explicit parameters (the source defaults are
`retries = 2`, `delay = 300`). -/
def withRetry {ε α : Type} (fn : Nat → Except ε α)
    (retries : Nat := 2) (delay : Nat := 300) : RetryTrace ε α :=
  withRetryGo fn delay 0 retries

theorem withRetryGo_invocations_le {ε α : Type} (fn : Nat → Except ε α)
    (delay : Nat) : ∀ fuel i,
    (withRetryGo fn delay i fuel).invocations ≤ fuel + 1 := by
  intro fuel
  induction fuel with
  | zero =>
    intro i
    rcases hfn : fn i with e | a <;> simp [withRetryGo, hfn]
  | succ fuel ih =>
    intro i
    rcases hfn : fn i with e | a
    · simp only [withRetryGo, hfn]
      have := ih (i + 1)
      omega
    · simp [withRetryGo, hfn]

theorem withRetryGo_delays {ε α : Type} (fn : Nat → Except ε α)
    (delay : Nat) : ∀ fuel i, ∃ n,
    (withRetryGo fn delay i fuel).delays =
      (List.range n).map (fun j => delay * (i + j + 1)) := by
  intro fuel
  induction fuel with
  | zero =>
    intro i
    refine ⟨0, ?_⟩
    rcases hfn : fn i with e | a <;> simp [withRetryGo, hfn]
  | succ fuel ih =>
    intro i
    rcases hfn : fn i with e | a
    · obtain ⟨n, hn⟩ := ih (i + 1)
      refine ⟨n + 1, ?_⟩
      simp only [withRetryGo, hfn]
      rw [List.range_succ_eq_map, List.map_cons, List.map_map]
      show delay * (i + 1) :: _ = delay * (i + 0 + 1) :: (List.range n).map _
      rw [hn]
      refine congrArg₂ _ (by ring_nf) (List.map_congr_left fun j _ => ?_)
      simp only [Function.comp_apply, Nat.succ_eq_add_one]
      ring
    · exact ⟨0, by simp [withRetryGo, hfn]⟩

theorem withRetryGo_first_success {ε α : Type} (fn : Nat → Except ε α)
    (delay : Nat) : ∀ k fuel i (a : α), k ≤ fuel →
    (∀ j, j < k → ∃ e, fn (i + j) = Except.error e) →
    fn (i + k) = Except.ok a →
    (withRetryGo fn delay i fuel).result = Except.ok a ∧
    (withRetryGo fn delay i fuel).invocations = k + 1 := by
  intro k
  induction k with
  | zero =>
    intro fuel i a _ _ hok
    rw [Nat.add_zero] at hok
    cases fuel <;> simp [withRetryGo, hok]
  | succ k ih =>
    intro fuel i a hk hfail hok
    obtain ⟨e, he⟩ := hfail 0 (Nat.succ_pos k)
    rw [Nat.add_zero] at he
    match fuel, hk with
    | fuel + 1, hk =>
      have := ih fuel (i + 1) a (Nat.le_of_succ_le_succ hk)
        (fun j hj => by
          have := hfail (j + 1) (Nat.succ_lt_succ hj)
          rwa [show i + (j + 1) = i + 1 + j by ring] at this)
        (by rwa [show i + 1 + k = i + (k + 1) by ring])
      simp [withRetryGo, he, this.1, this.2]

theorem withRetryGo_all_fail {ε α : Type} (fn : Nat → Except ε α)
    (delay : Nat) : ∀ fuel i (e : ε),
    (∀ j, j ≤ fuel → ∃ e2, fn (i + j) = Except.error e2) →
    fn (i + fuel) = Except.error e →
    (withRetryGo fn delay i fuel).result = Except.error e := by
  intro fuel
  induction fuel with
  | zero =>
    intro i e _ hlast
    rw [Nat.add_zero] at hlast
    simp [withRetryGo, hlast]
  | succ fuel ih =>
    intro i e hfail hlast
    obtain ⟨e0, he0⟩ := hfail 0 (Nat.zero_le _)
    rw [Nat.add_zero] at he0
    have := ih (i + 1) e
      (fun j hj => by
        have := hfail (j + 1) (Nat.succ_le_succ hj)
        rwa [show i + (j + 1) = i + 1 + j by ring] at this)
      (by rwa [show i + 1 + fuel = i + (fuel + 1) by ring])
    simp [withRetryGo, he0, this]

/-- C6: with the default parameters (`retries = 2`, `delay = 300`), the
operation is invoked at most 3 times; the sleep before retry number
`k` lasts `300 × k` milliseconds; if the first success is attempt
`k` (0-based, after `k` failures), its value is propagated after
exactly `k + 1` invocations; and if all three attempts fail, the error
of the last attempt is the one propagated. -/
theorem withRetry_default_spec {ε α : Type} (fn : Nat → Except ε α) :
    (withRetry fn).invocations ≤ 3 ∧
    (∃ n, (withRetry fn).delays =
        (List.range n).map (fun j => 300 * (j + 1))) ∧
    (∀ k (a : α), k ≤ 2 → (∀ j, j < k → ∃ e, fn j = Except.error e) →
        fn k = Except.ok a →
        (withRetry fn).result = Except.ok a ∧
        (withRetry fn).invocations = k + 1) ∧
    (∀ e : ε, (∀ j, j ≤ 2 → ∃ e2, fn j = Except.error e2) →
        fn 2 = Except.error e →
        (withRetry fn).result = Except.error e) := by
  refine ⟨withRetryGo_invocations_le fn 300 2 0, ?_, ?_, ?_⟩
  · obtain ⟨n, hn⟩ := withRetryGo_delays fn 300 2 0
    exact ⟨n, by simpa using hn⟩
  · intro k a hk hfail hok
    exact withRetryGo_first_success fn 300 k 2 0 a hk
      (fun j hj => by simpa using hfail j hj) (by simpa using hok)
  · intro e hfail hlast
    exact withRetryGo_all_fail fn 300 2 0 e
      (fun j hj => by simpa using hfail j hj) (by simpa using hlast)

/-- Witness for C6: an operation that fails once and then succeeds is
invoked exactly twice and its second attempt's value is returned; the
single sleep lasts 300 ms. -/
theorem withRetry_default_spec_witness :
    (withRetry (fun i => if i = 0 then Except.error "boom"
       else Except.ok 42)).result = Except.ok 42 ∧
    (withRetry (fun i => if i = 0 then Except.error "boom"
       else Except.ok 42)).invocations = 2 := by
  have h := (withRetry_default_spec
      (fun i => if i = 0 then Except.error "boom" else Except.ok 42)).2.2.1
      1 42 (by omega)
      (fun j hj => ⟨"boom", by simp [Nat.lt_one_iff.mp hj]⟩)
      (by simp)
  exact h

/-! ## `usePaginatedFloorSamples` pagination math
(src/unnamed/part_005, lines 1642–1651)

```ts
const totalPages = totalCount > 0 ? Math.ceil(totalCount / pageSize) : 0;
return { ..., hasMore: totalCount > 0 ? page < totalPages : products.length === pageSize };
```
-/

/-- `totalPages`: `Math.ceil(totalCount / pageSize)` for a known
positive count, `0` otherwise (for `pageSize ≥ 1` the ceiling of the
division is `(totalCount + pageSize - 1) / pageSize`). -/
def totalPages (totalCount pageSize : Nat) : Nat :=
  if 0 < totalCount then (totalCount + pageSize - 1) / pageSize else 0

/-- The `hasMore` field returned by the hook, as a function of the
page, the page size, the known total count (`0` when not yet known) and
the length of the fetched page. -/
def paginatedHasMore (page pageSize totalCount productsLen : Nat) : Bool :=
  if 0 < totalCount then page < totalPages totalCount pageSize
  else productsLen = pageSize

/-- C7: for `page ≥ 1` and `pageSize ≥ 1`, with a known positive count
`hasMore` is true exactly when `page × pageSize < totalCount`; with the
count not yet known (`totalCount = 0`) it is true exactly when the
fetched page was full-sized. -/
theorem usePaginatedFloorSamples_hasMore_spec
    (page pageSize totalCount productsLen : Nat)
    (hpage : 1 ≤ page) (hsize : 1 ≤ pageSize) :
    (0 < totalCount →
      (paginatedHasMore page pageSize totalCount productsLen = true ↔
        page * pageSize < totalCount)) ∧
    (totalCount = 0 →
      (paginatedHasMore page pageSize totalCount productsLen = true ↔
        productsLen = pageSize)) := by
  constructor
  · intro hpos
    rw [paginatedHasMore, totalPages, if_pos hpos, if_pos hpos]
    rw [show ((page < (totalCount + pageSize - 1) / pageSize : Bool) = true) ↔
      page < (totalCount + pageSize - 1) / pageSize from by simp]
    rw [Nat.lt_iff_add_one_le, Nat.le_div_iff_mul_le hsize, add_mul, one_mul]
    omega
  · intro hzero
    subst hzero
    rw [paginatedHasMore, if_neg (by omega)]
    simp

/-- Witness for C7: with 25 floor samples and page size 12, page 1 has
more pages and page 3 does not. -/
theorem usePaginatedFloorSamples_hasMore_witness :
    paginatedHasMore 1 12 25 12 = true ∧
    paginatedHasMore 3 12 25 1 = false := by
  have h1 := (usePaginatedFloorSamples_hasMore_spec 1 12 25 12 (by norm_num)
    (by norm_num)).1 (by norm_num)
  have h3 := (usePaginatedFloorSamples_hasMore_spec 3 12 25 1 (by norm_num)
    (by norm_num)).1 (by norm_num)
  refine ⟨h1.2 (by norm_num), ?_⟩
  cases hb : paginatedHasMore 3 12 25 1
  · rfl
  · exact absurd (h3.1 hb) (by norm_num)

/-! ## Floor-sample caches (src/unnamed/part_005, lines 1340–1435)

The module-level mutable cache state: the in-memory count cache, the
in-memory page cache (an insertion-ordered `Map` from `"page:pageSize"`
keys to page entries) and the local-storage mirror of the count.  The
local-storage page mirror is untouched by `setCachedFloorSamplesCount`
and is not part of this state. -/

structure PageCacheEntry where
  products : List Product
  totalCount : Nat
  timestamp : Nat
deriving Repr, DecidableEq

structure CountCacheEntry where
  count : Nat
  timestamp : Nat
deriving Repr, DecidableEq

structure FloorSamplesCacheState where
  countCache : Option CountCacheEntry
  pageCache : List (String × PageCacheEntry)
  storedCount : Option CountCacheEntry
deriving Repr, DecidableEq

/-- `setCachedFloorSamplesCount` (lines 1429–1435): refresh the count
cache and its local-storage mirror, then overwrite `totalCount` on
every page-cache entry in place (`Map.set` on an existing key).  `now`
is `Date.now()`. -/
def setCachedFloorSamplesCount (st : FloorSamplesCacheState)
    (count now : Nat) : FloorSamplesCacheState :=
  { countCache := some { count := count, timestamp := now }
    storedCount := some { count := count, timestamp := now }
    pageCache := st.pageCache.map (fun kv =>
      (kv.1, { kv.2 with totalCount := count })) }

/-- C8: refreshing the total-count cache overwrites `totalCount` on
every currently cached page entry while leaving its key, products and
timestamp unchanged, and neither adds nor removes page entries. -/
theorem setCachedFloorSamplesCount_pages (st : FloorSamplesCacheState)
    (count now : Nat) :
    (setCachedFloorSamplesCount st count now).pageCache.map Prod.fst =
      st.pageCache.map Prod.fst ∧
    (setCachedFloorSamplesCount st count now).pageCache.map
        (fun kv => kv.2.products) =
      st.pageCache.map (fun kv => kv.2.products) ∧
    (setCachedFloorSamplesCount st count now).pageCache.map
        (fun kv => kv.2.timestamp) =
      st.pageCache.map (fun kv => kv.2.timestamp) ∧
    ∀ kv ∈ (setCachedFloorSamplesCount st count now).pageCache,
      kv.2.totalCount = count := by
  refine ⟨?_, ?_, ?_, ?_⟩
  · simp [setCachedFloorSamplesCount, List.map_map, Function.comp]
  · simp [setCachedFloorSamplesCount, List.map_map, Function.comp]
  · simp [setCachedFloorSamplesCount, List.map_map, Function.comp]
  · intro kv hkv
    simp only [setCachedFloorSamplesCount, List.mem_map] at hkv
    obtain ⟨kv0, _, rfl⟩ := hkv
    rfl

/-! ## The store state and the mutation orchestrators
(src/unnamed/part_005, `addProduct` lines 258–450, `updateProduct`
lines 452–731, `deleteProduct` lines 733–779)

The remote store is the four row collections plus a counter from which
it assigns fresh ids.  Each orchestrator is embedded as a state
transformer; the in-memory React catalog state, toasts and error
re-fetches are presentation concerns outside these claims. -/

structure DbState where
  nextId : Nat
  products : List DbProduct
  product_images : List DbProductImage
  set_items : List DbSetItem
  set_item_images : List DbSetItemImage
deriving Repr, DecidableEq

/-- A products row before any column is written: the store-assigned id
plus defaults.  Every client-written column is overwritten by the
payload functions below.  Timestamps are store-generated and opaque. -/
def blankProductRow (id : Nat) : DbProduct :=
  { id := id, name := "", category := "", product_type := none,
    subcategory := none, is_set := false, part_of_set := none,
    can_be_sold_separately := true, description := "", price_original := 0,
    discount_percent := 0, price_final := 0, is_new := false, tags := [],
    main_image_url := "", created_at := "", updated_at := "" }

/-- The input type of `addProduct`/`updateProduct`:
`Omit<Product, 'id' | 'createdAt' | 'updatedAt' | 'priceFinal'>` with
`partOfSet` and `canBeSoldSeparately` optional (the code tests them
against `undefined`). -/
structure ProductInput where
  name : String
  category : String
  productType : Option String
  subcategory : Option String
  isSet : Bool
  partOfSet : Option Nat
  canBeSoldSeparately : Option Bool
  description : String
  priceOriginal : ℚ
  discountPercent : ℚ
  isNew : Bool
  tags : List String
  mainImageUrl : String
  imageUrls : Option (List String)
  setItems : Option (List SetItem)
deriving Repr, DecidableEq

/-- Rounding a rational to an integer with ties away from zero — the
rounding PostgreSQL applies when a value is stored into a `NUMERIC`
column. -/
def pgRoundTiesAway (x : ℚ) : ℤ :=
  if 0 ≤ x then ⌊x + 1 / 2⌋ else -⌊-x + 1 / 2⌋

/-- Assignment into a `NUMERIC(10,2)` column (src/unnamed/part_013,
line 110: `price_final NUMERIC(10,2)`) keeps two fractional digits,
rounding ties away from zero. -/
def numericScale2 (q : ℚ) : ℚ :=
  (pgRoundTiesAway (q * 100) : ℚ) / 100

/-- The `calculate_final_price` trigger (src/unnamed/part_013, lines
233–250), which fires before every insert or update on `products` and
derives `price_final`:

```sql
IF NEW.discount_percent > 0 THEN
  NEW.price_final = NEW.price_original * (1 - NEW.discount_percent / 100);
ELSE
  NEW.price_final = NEW.price_original;
END IF;
```

the assigned value then being stored into the `NUMERIC(10,2)` column
`price_final`.  None of the claims proved here depends on the derived
value. -/
def storedPriceFinal (price_original discount_percent : ℚ) : ℚ :=
  if 0 < discount_percent then
    numericScale2 (price_original * (1 - discount_percent / 100))
  else
    numericScale2 price_original

/-- `item.name?.trim() || `${product.name} Item ${index + 1}`` -/
def setItemName (productName : String) (index : Nat) (item : SetItem) :
    String :=
  jsStrOr item.name.trim (productName ++ " Item " ++ toString (index + 1))

/-- `item.imageUrl ? [item.imageUrl] : []` -/
def setItemLegacyImage (item : SetItem) : List String :=
  match item.imageUrl with
  | some u => if u = "" then [] else [u]
  | none => []

/-- `item.imageUrls && item.imageUrls.length > 0 ? item.imageUrls :
item.imageUrl ? [item.imageUrl] : []` -/
def setItemImageUrls (item : SetItem) : List String :=
  match item.imageUrls with
  | some l => if l.length > 0 then l else setItemLegacyImage item
  | none => setItemLegacyImage item

/-- `itemImageUrls[0] || product.mainImageUrl` -/
def childMainImageUrl (mainImageUrl : String) (itemImageUrls : List String) :
    String :=
  match itemImageUrls.head? with
  | some u => jsStrOr u mainImageUrl
  | none => mainImageUrl

/-- The products columns written for a set item's child product.  The
create path inserts them (lines 316–330) and the update path writes the
identical payload, as an insert for a new child (lines 584–598) or as
an in-place update of a linked child (lines 543–557). -/
def childProductColumns (p : ProductInput) (parentId index : Nat)
    (item : SetItem) (r : DbProduct) : DbProduct :=
  let itemName := setItemName p.name index item
  let urls := setItemImageUrls item
  { r with
    name := itemName
    category := p.category
    product_type := jsStrOrNone p.productType
    subcategory := jsStrOrNone (some itemName)
    description := p.description
    price_original := item.price
    discount_percent := 0
    price_final := storedPriceFinal item.price 0
    is_new := p.isNew
    tags := p.tags
    main_image_url := childMainImageUrl p.mainImageUrl urls
    is_set := false
    part_of_set := some parentId
    can_be_sold_separately := true }

/-- Insert one `product_images` row per URL with `display_order` equal
to its index (lines 286–290, 339–343, 489–493 etc.); the store assigns
ids from the counter.  The source guards the insert behind a
non-emptiness test, which is a no-op difference. -/
def insertImageRows (st : DbState) (pid : Nat) (urls : List String) :
    DbState :=
  let rows := urls.enum.map (fun iu =>
    { id := st.nextId + iu.1
      product_id := pid
      image_url := iu.2
      display_order := (iu.1 : Int) })
  { st with
    nextId := st.nextId + urls.length
    product_images := st.product_images ++ rows }

/-- One iteration of the set-item child-creation loop (create lines
304–351, update lines 582–619): insert the child products row, then
its image rows; returns the new state and the child's id. -/
def createChild (st : DbState) (p : ProductInput) (parentId index : Nat)
    (item : SetItem) : DbState × Nat :=
  let childId := st.nextId
  let row := childProductColumns p parentId index item
    (blankProductRow childId)
  let st1 : DbState :=
    { st with
      nextId := childId + 1
      products := st.products ++ [row] }
  (insertImageRows st1 childId (setItemImageUrls item), childId)

/-- The `addProduct` child-creation loop: every set item gets a fresh
child product (the create path never consults `item.childProductId`);
returns the final state and `childProductIdsByIndex`. -/
def createChildren (p : ProductInput) (parentId : Nat) :
    DbState → Nat → List SetItem → DbState × List Nat
  | st, _, [] => (st, [])
  | st, index, item :: rest =>
    let c := createChild st p parentId index item
    let r2 := createChildren p parentId c.1 (index + 1) rest
    (r2.1, c.2 :: r2.2)

/-- `item.imageUrl || (item.imageUrls && item.imageUrls.length > 0 ?
item.imageUrls[0] : null)` — the legacy single-image column of a
set-items row. -/
def setItemRowImage (item : SetItem) : Option String :=
  let fb : Option String :=
    match item.imageUrls with
    | some l => if l.length > 0 then l.head? else none
    | none => none
  match item.imageUrl with
  | some u => if u = "" then fb else some u
  | none => fb

/-- Insert the set-items rows for `items` (one per item, in order,
`display_order` = index, `child_product_id` from
`childProductIdsByIndex`), then their set-item-image rows (create lines
354–400; update lines 622–669 are identical). -/
def insertSetItemRows (st : DbState) (p : ProductInput) (parentId : Nat)
    (items : List SetItem) (childIds : List Nat) : DbState :=
  let baseId := st.nextId
  let rows := items.enum.map (fun iu =>
    { id := baseId + iu.1
      product_id := parentId
      name := iu.2.name
      price := iu.2.price
      image_url := setItemRowImage iu.2
      display_order := (iu.1 : Int)
      child_product_id := childIds[iu.1]? })
  let st1 : DbState :=
    { st with
      nextId := baseId + items.length
      set_items := st.set_items ++ rows }
  let payload := (items.enum.map (fun iu =>
    match iu.2.imageUrls with
    | some l =>
      if l.length > 0 then
        l.enum.map (fun ju => (baseId + iu.1, ju.1, ju.2))
      else []
    | none => [])).flatten
  let imgRows := payload.enum.map (fun kp =>
    { id := st1.nextId + kp.1
      set_item_id := kp.2.1
      image_url := kp.2.2.2
      display_order := (kp.2.2.1 : Int) })
  { st1 with
    nextId := st1.nextId + imgRows.length
    set_item_images := st1.set_item_images ++ imgRows }

/-- The products columns written for the product row itself on create
(lines 265–279): `is_set` is `hasSetItems`, `part_of_set` is
`product.partOfSet || null` and `can_be_sold_separately` is
`product.canBeSoldSeparately ?? true`. -/
def parentProductRow (p : ProductInput) (parentId : Nat)
    (hasSetItems : Bool) : DbProduct :=
  { blankProductRow parentId with
    name := p.name
    category := p.category
    product_type := jsStrOrNone p.productType
    subcategory := jsStrOrNone p.subcategory
    is_set := hasSetItems
    part_of_set := p.partOfSet
    can_be_sold_separately := p.canBeSoldSeparately.getD true
    description := p.description
    price_original := p.priceOriginal
    discount_percent := p.discountPercent
    price_final := storedPriceFinal p.priceOriginal p.discountPercent
    is_new := p.isNew
    tags := p.tags
    main_image_url := p.mainImageUrl }

/-- `addProduct` (lines 258–450), store effects only: insert the parent
row (`is_set` iff set items are present), its image rows, one fresh
child product per set item, and the set-item rows referencing the
children; returns the new state and the parent's id. -/
def addProduct (st : DbState) (p : ProductInput) : DbState × Nat :=
  let items := p.setItems.getD []
  let hasSetItems : Bool := !items.isEmpty
  let parentId := st.nextId
  let st1 : DbState :=
    { st with
      nextId := parentId + 1
      products := st.products ++ [parentProductRow p parentId hasSetItems] }
  let st2 := insertImageRows st1 parentId (p.imageUrls.getD [])
  let pr := if hasSetItems then createChildren p parentId st2 0 items
    else (st2, [])
  let st4 := if hasSetItems then insertSetItemRows pr.1 p parentId items pr.2
    else pr.1
  (st4, parentId)

/-- The fields reset when a child product is detached from its set
(update lines 674–677; delete lines 755–758 are identical). -/
def detachChildRow (r : DbProduct) : DbProduct :=
  { r with
    part_of_set := none
    is_set := false
    can_be_sold_separately := true }

/-- `deleteProduct` (lines 733–779), store effects only: look the
product up; if it is itself a set-item's child (`part_of_set` set),
delete the set-items rows that reference it; if it is a set, detach all
products whose `part_of_set` points at it; finally delete its row. -/
def deleteProduct (st : DbState) (id : Nat) : DbState :=
  let productInfo := st.products.find? (fun r => r.id = id)
  let st1 : DbState :=
    match productInfo with
    | some info =>
      let sa : DbState :=
        if info.part_of_set.isSome then
          { st with set_items :=
              st.set_items.filter (fun si => si.child_product_id ≠ some id) }
        else st
      if info.is_set then
        let childIds := (sa.products.filter
          (fun r => r.part_of_set = some id)).map (fun r => r.id)
        if childIds.length > 0 then
          { sa with products := sa.products.map (fun r =>
              if r.id ∈ childIds then detachChildRow r else r) }
        else sa
      else sa
    | none => st
  { st1 with products := st1.products.filter (fun r => r.id ≠ id) }

theorem insertImageRows_frame (st : DbState) (pid : Nat)
    (urls : List String) :
    (insertImageRows st pid urls).products = st.products ∧
    (insertImageRows st pid urls).set_items = st.set_items ∧
    (insertImageRows st pid urls).set_item_images = st.set_item_images ∧
    (insertImageRows st pid urls).nextId = st.nextId + urls.length :=
  ⟨rfl, rfl, rfl, rfl⟩

theorem createChild_spec (st : DbState) (p : ProductInput)
    (parentId index : Nat) (item : SetItem) :
    (createChild st p parentId index item).1.products =
      st.products ++ [childProductColumns p parentId index item
        (blankProductRow st.nextId)] ∧
    (createChild st p parentId index item).2 = st.nextId ∧
    (createChild st p parentId index item).1.set_items = st.set_items ∧
    (createChild st p parentId index item).1.set_item_images =
      st.set_item_images ∧
    st.nextId < (createChild st p parentId index item).1.nextId := by
  refine ⟨rfl, rfl, rfl, rfl, ?_⟩
  show st.nextId < st.nextId + 1 + (setItemImageUrls item).length
  omega

theorem createChildren_spec (p : ProductInput) (parentId : Nat) :
    ∀ (items : List SetItem) (st : DbState) (index : Nat),
    ∃ children : List DbProduct,
      (createChildren p parentId st index items).1.products =
        st.products ++ children ∧
      children.length = items.length ∧
      (createChildren p parentId st index items).2.length = items.length ∧
      (createChildren p parentId st index items).1.set_items =
        st.set_items ∧
      (createChildren p parentId st index items).1.set_item_images =
        st.set_item_images ∧
      st.nextId ≤ (createChildren p parentId st index items).1.nextId ∧
      ∀ k item, items[k]? = some item →
        ∃ child, children[k]? = some child ∧
          (createChildren p parentId st index items).2[k]? = some child.id ∧
          child = childProductColumns p parentId (index + k) item
            (blankProductRow child.id) := by
  intro items
  induction items with
  | nil =>
    intro st index
    exact ⟨[], by simp [createChildren], by simp, by simp [createChildren],
      rfl, rfl, le_refl _, fun k item h => by simp at h⟩
  | cons item rest ih =>
    intro st index
    obtain ⟨cs, h1, h2, h3, h4, h5, h6, h7⟩ :=
      ih (createChild st p parentId index item).1 (index + 1)
    obtain ⟨g1, g2, g3, g4, g5⟩ := createChild_spec st p parentId index item
    refine ⟨childProductColumns p parentId index item
      (blankProductRow st.nextId) :: cs, ?_, ?_, ?_, ?_, ?_, ?_, ?_⟩
    · show (createChildren p parentId
        (createChild st p parentId index item).1 (index + 1) rest).1.products = _
      rw [h1, g1, List.append_assoc, List.singleton_append]
    · simpa using h2
    · show ((createChild st p parentId index item).2 ::
        (createChildren p parentId (createChild st p parentId index item).1
          (index + 1) rest).2).length = _
      simpa using h3
    · show (createChildren p parentId
        (createChild st p parentId index item).1 (index + 1) rest).1.set_items = _
      rw [h4, g3]
    · show (createChildren p parentId
        (createChild st p parentId index item).1 (index + 1) rest).1.set_item_images = _
      rw [h5, g4]
    · exact le_of_lt (lt_of_lt_of_le g5 h6)
    · intro k it hk
      cases k with
      | zero =>
        simp only [List.getElem?_cons_zero, Option.some.injEq] at hk
        cases hk
        refine ⟨childProductColumns p parentId index item
          (blankProductRow st.nextId), by simp, ?_, ?_⟩
        · show ((createChild st p parentId index item).2 ::
            (createChildren p parentId (createChild st p parentId index item).1
              (index + 1) rest).2)[0]? = _
          simp only [List.getElem?_cons_zero, g2, Option.some.injEq]
          rfl
        · rfl
      | succ k =>
        simp only [List.getElem?_cons_succ] at hk
        obtain ⟨child, hc1, hc2, hc3⟩ := h7 k it hk
        refine ⟨child, by simpa using hc1, ?_, ?_⟩
        · show ((createChild st p parentId index item).2 ::
            (createChildren p parentId (createChild st p parentId index item).1
              (index + 1) rest).2)[k + 1]? = _
          simpa using hc2
        · rw [hc3]
          congr 1
          omega

theorem insertSetItemRows_spec (st : DbState) (p : ProductInput)
    (parentId : Nat) (items : List SetItem) (childIds : List Nat) :
    (insertSetItemRows st p parentId items childIds).products =
      st.products ∧
    (insertSetItemRows st p parentId items childIds).product_images =
      st.product_images ∧
    ∃ rows : List DbSetItem,
      (insertSetItemRows st p parentId items childIds).set_items =
        st.set_items ++ rows ∧
      rows.length = items.length ∧
      ∀ (k : Nat) (item : SetItem), items[k]? = some item →
        ∃ setRow : DbSetItem,
          rows[k]? = some setRow ∧
          setRow.product_id = parentId ∧
          setRow.name = item.name ∧
          setRow.price = item.price ∧
          setRow.image_url = setItemRowImage item ∧
          setRow.display_order = (k : Int) ∧
          setRow.child_product_id = childIds[k]? := by
  refine ⟨rfl, rfl, ?_⟩
  refine ⟨items.enum.map (fun (iu : Nat × SetItem) =>
    { id := st.nextId + iu.1
      product_id := parentId
      name := iu.2.name
      price := iu.2.price
      image_url := setItemRowImage iu.2
      display_order := (iu.1 : Int)
      child_product_id := childIds[iu.1]? }), rfl, by simp, ?_⟩
  intro k item hk
  refine ⟨{ id := st.nextId + k
            product_id := parentId
            name := item.name
            price := item.price
            image_url := setItemRowImage item
            display_order := (k : Int)
            child_product_id := childIds[k]? },
    ?_, rfl, rfl, rfl, rfl, rfl, rfl⟩
  rw [List.getElem?_map, List.getElem?_enum, hk]
  rfl

/-- Unfolding equation for `addProduct` when the input has a non-empty
set-item list. -/
theorem addProduct_hasSet_eq (st : DbState) (p : ProductInput)
    (items : List SetItem) (hset : p.setItems = some items)
    (hne : items ≠ []) :
    addProduct st p =
      (insertSetItemRows
        (createChildren p st.nextId
          (insertImageRows
            { st with
              nextId := st.nextId + 1
              products := st.products ++ [parentProductRow p st.nextId true] }
            st.nextId (p.imageUrls.getD [])) 0 items).1
        p st.nextId items
        (createChildren p st.nextId
          (insertImageRows
            { st with
              nextId := st.nextId + 1
              products := st.products ++ [parentProductRow p st.nextId true] }
            st.nextId (p.imageUrls.getD [])) 0 items).2,
       st.nextId) := by
  have hie : items.isEmpty = false := by
    cases items with
    | nil => exact absurd rfl hne
    | cons a l => rfl
  simp [addProduct, hset, hie]

/-- C1: creating a product whose set items are non-empty (and carry no
`childProductId`) inserts, besides the parent row, exactly one
standalone child product row per set item — `category`/`product_type`
inherited from the parent row, `price_original` the set item's price,
`discount_percent` 0, `part_of_set` the new parent's id,
`can_be_sold_separately` true — and one set-items row per set item
whose `child_product_id` references the corresponding child's id. -/
theorem addProduct_set_children (st : DbState) (p : ProductInput)
    (items : List SetItem) (hset : p.setItems = some items)
    (hne : items ≠ [])
    (hnochild : ∀ it ∈ items, it.childProductId = none) :
    ∃ (parentRow : DbProduct) (children : List DbProduct)
      (newSetItems : List DbSetItem),
      (addProduct st p).1.products = st.products ++ parentRow :: children ∧
      parentRow.id = (addProduct st p).2 ∧
      parentRow.is_set = true ∧
      children.length = items.length ∧
      (addProduct st p).1.set_items = st.set_items ++ newSetItems ∧
      newSetItems.length = items.length ∧
      ∀ (k : Nat) (item : SetItem), items[k]? = some item →
        ∃ (child : DbProduct) (setRow : DbSetItem),
          children[k]? = some child ∧
          newSetItems[k]? = some setRow ∧
          child.category = parentRow.category ∧
          child.product_type = parentRow.product_type ∧
          child.price_original = item.price ∧
          child.discount_percent = 0 ∧
          child.part_of_set = some (addProduct st p).2 ∧
          child.can_be_sold_separately = true ∧
          child.is_set = false ∧
          setRow.child_product_id = some child.id := by
  rw [addProduct_hasSet_eq st p items hset hne]
  obtain ⟨children, hc1, hc2, hc3, hc4, hc5, hc6, hc7⟩ :=
    createChildren_spec p st.nextId items
      (insertImageRows
        { st with
          nextId := st.nextId + 1
          products := st.products ++ [parentProductRow p st.nextId true] }
        st.nextId (p.imageUrls.getD [])) 0
  obtain ⟨hs1, hs2, rows, hs3, hs4, hs5⟩ :=
    insertSetItemRows_spec
      (createChildren p st.nextId
        (insertImageRows
          { st with
            nextId := st.nextId + 1
            products := st.products ++ [parentProductRow p st.nextId true] }
          st.nextId (p.imageUrls.getD [])) 0 items).1
      p st.nextId items
      (createChildren p st.nextId
        (insertImageRows
          { st with
            nextId := st.nextId + 1
            products := st.products ++ [parentProductRow p st.nextId true] }
          st.nextId (p.imageUrls.getD [])) 0 items).2
  refine ⟨parentProductRow p st.nextId true, children, rows, ?_, rfl, rfl,
    hc2, ?_, hs4, ?_⟩
  · rw [hs1, hc1]
    show st.products ++ [parentProductRow p st.nextId true] ++ children = _
    rw [List.append_assoc, List.singleton_append]
  · rw [hs3, hc4]
    rfl
  · intro k item hk
    obtain ⟨child, hch1, hch2, hch3⟩ := hc7 k item hk
    obtain ⟨setRow, hr1, hr2, hr3, hr4, hr5, hr6, hr7⟩ := hs5 k item hk
    refine ⟨child, setRow, hch1, hr1, ?_, ?_, ?_, ?_, ?_, ?_, ?_, ?_⟩
    · rw [hch3]; rfl
    · rw [hch3]; rfl
    · rw [hch3]; rfl
    · rw [hch3]; rfl
    · rw [hch3]; rfl
    · rw [hch3]; rfl
    · rw [hch3]; rfl
    · rw [hr7, hch2]

/-- Witness for C1: a concrete two-item set input; applying the theorem
at it yields two children, both linked back from the set-item rows. -/
theorem addProduct_set_children_witness :
    ∃ (parentRow : DbProduct) (children : List DbProduct)
      (newSetItems : List DbSetItem),
      (addProduct
        { nextId := 100, products := [], product_images := [],
          set_items := [], set_item_images := [] }
        { name := "Living Set", category := "floor_sample",
          productType := some "sofa_set", subcategory := none,
          isSet := true, partOfSet := none, canBeSoldSeparately := none,
          description := "d", priceOriginal := 300, discountPercent := 10,
          isNew := true, tags := ["new"], mainImageUrl := "main",
          imageUrls := some ["main"],
          setItems := some
            [{ id := 0, name := "Sofa", price := 100, imageUrl := none,
               imageUrls := some ["u1"], childProductId := none },
             { id := 0, name := "Loveseat", price := 50,
               imageUrl := some "legacy", imageUrls := none,
               childProductId := none }] }).1.products =
        [] ++ parentRow :: children ∧
      parentRow.id =
        (addProduct
          { nextId := 100, products := [], product_images := [],
            set_items := [], set_item_images := [] }
          { name := "Living Set", category := "floor_sample",
            productType := some "sofa_set", subcategory := none,
            isSet := true, partOfSet := none, canBeSoldSeparately := none,
            description := "d", priceOriginal := 300, discountPercent := 10,
            isNew := true, tags := ["new"], mainImageUrl := "main",
            imageUrls := some ["main"],
            setItems := some
              [{ id := 0, name := "Sofa", price := 100, imageUrl := none,
                 imageUrls := some ["u1"], childProductId := none },
               { id := 0, name := "Loveseat", price := 50,
                 imageUrl := some "legacy", imageUrls := none,
                 childProductId := none }] }).2 ∧
      children.length = 2 := by
  obtain ⟨parentRow, children, newSetItems, h1, h2, h3, h4, h5, h6, h7⟩ :=
    addProduct_set_children
      { nextId := 100, products := [], product_images := [],
        set_items := [], set_item_images := [] }
      { name := "Living Set", category := "floor_sample",
        productType := some "sofa_set", subcategory := none,
        isSet := true, partOfSet := none, canBeSoldSeparately := none,
        description := "d", priceOriginal := 300, discountPercent := 10,
        isNew := true, tags := ["new"], mainImageUrl := "main",
        imageUrls := some ["main"],
        setItems := some
          [{ id := 0, name := "Sofa", price := 100, imageUrl := none,
             imageUrls := some ["u1"], childProductId := none },
           { id := 0, name := "Loveseat", price := 50,
             imageUrl := some "legacy", imageUrls := none,
             childProductId := none }] }
      [{ id := 0, name := "Sofa", price := 100, imageUrl := none,
         imageUrls := some ["u1"], childProductId := none },
       { id := 0, name := "Loveseat", price := 50,
         imageUrl := some "legacy", imageUrls := none,
         childProductId := none }]
      rfl (by simp) (by decide)
  exact ⟨parentRow, children, newSetItems, h1, h2, h4⟩

/-! ### `deleteProduct` fixtures: a set with two linked children. -/

def exParentSet : DbProduct :=
  { blankProductRow 1 with name := "Set", is_set := true }

def exChildA : DbProduct :=
  { blankProductRow 2 with name := "A", part_of_set := some 1 }

def exChildB : DbProduct :=
  { blankProductRow 3 with name := "B", part_of_set := some 1 }

def exSetItemA : DbSetItem :=
  { id := 10, product_id := 1, name := "A", price := 1, image_url := none,
    display_order := 0, child_product_id := some 2 }

def exSetItemB : DbSetItem :=
  { id := 11, product_id := 1, name := "B", price := 2, image_url := none,
    display_order := 1, child_product_id := some 3 }

def exDeleteState : DbState :=
  { nextId := 20, products := [exParentSet, exChildA, exChildB],
    product_images := [], set_items := [exSetItemA, exSetItemB],
    set_item_images := [] }

/-- C2 counterexample: deleting the set-child product `2` removes the
parent's corresponding set-items row (id 10) outright instead of
keeping it with a detached `child_product_id`; only the other row
(id 11) survives. -/
theorem deleteProduct_child_counterexample :
    (deleteProduct exDeleteState 2).set_items.map (fun si => si.id) =
      [11] ∧
    ¬ ∃ si ∈ (deleteProduct exDeleteState 2).set_items,
        si.id = 10 ∧ si.child_product_id = none := by
  decide

/-- C2 (amended): deleting a product that is a set-item's child
*deletes* the parent's set-items rows whose `child_product_id`
references it (rather than detaching the reference), leaving every
other set-items row intact; deleting a set detaches each child product
(`part_of_set` cleared, `is_set` false, `can_be_sold_separately` true)
and never deletes it; the deleted product's own row is removed. -/
theorem deleteProduct_spec (st : DbState) (delId : Nat) (info : DbProduct)
    (hfind : st.products.find? (fun r => r.id = delId) = some info) :
    (info.part_of_set.isSome = true →
        (deleteProduct st delId).set_items =
          st.set_items.filter (fun si => si.child_product_id ≠ some delId)) ∧
    (info.part_of_set = none →
        (deleteProduct st delId).set_items = st.set_items) ∧
    (info.is_set = true →
      ∀ r ∈ st.products, r.part_of_set = some delId → r.id ≠ delId →
        detachChildRow r ∈ (deleteProduct st delId).products) ∧
    (∀ r ∈ (deleteProduct st delId).products, r.id ≠ delId) := by
  refine ⟨?_, ?_, ?_, ?_⟩
  · intro hsome
    rcases hpart : info.part_of_set with _ | pid
    · rw [hpart] at hsome
      simp at hsome
    · rcases hset : info.is_set with _ | _
      · simp only [deleteProduct, hfind, hpart, hset, Option.isSome_some,
          if_true, Bool.false_eq_true, if_false]
      · simp only [deleteProduct, hfind, hpart, hset, Option.isSome_some,
          if_true]
        split <;> rfl
  · intro hnone
    rcases hset : info.is_set with _ | _
    · simp only [deleteProduct, hfind, hnone, hset, Option.isSome_none,
        if_true, Bool.false_eq_true, if_false]
    · simp only [deleteProduct, hfind, hnone, hset, Option.isSome_none,
        if_true, Bool.false_eq_true, if_false]
      split <;> rfl
  · intro hset r hr hrpart hrid
    have hidmem : r.id ∈ (st.products.filter
        (fun q => q.part_of_set = some delId)).map (fun q => q.id) :=
      List.mem_map_of_mem _ (List.mem_filter.2 ⟨hr, by simp [hrpart]⟩)
    rcases hpart : info.part_of_set with _ | pid
    · simp only [deleteProduct, hfind, hpart, hset, Option.isSome_none,
        if_true, Bool.false_eq_true, if_false]
      rw [if_pos (List.length_pos.2 (List.ne_nil_of_mem hidmem))]
      refine List.mem_filter.2 ⟨?_, by simp [detachChildRow, hrid]⟩
      exact List.mem_map.2 ⟨r, hr, by rw [if_pos hidmem]⟩
    · simp only [deleteProduct, hfind, hpart, hset, Option.isSome_some,
        if_true]
      rw [if_pos (List.length_pos.2 (List.ne_nil_of_mem hidmem))]
      refine List.mem_filter.2 ⟨?_, by simp [detachChildRow, hrid]⟩
      exact List.mem_map.2 ⟨r, hr, by rw [if_pos hidmem]⟩
  · intro r hr
    simp only [deleteProduct] at hr
    have := List.mem_filter.1 hr
    simpa using this.2

/-- Witness for C2's amended statement at the concrete fixture: the
child-delete removes set-item row 10 and keeps row 11; the set-delete
detaches child product 2. -/
theorem deleteProduct_spec_witness :
    (deleteProduct exDeleteState 2).set_items = [exSetItemB] ∧
    detachChildRow exChildA ∈ (deleteProduct exDeleteState 1).products := by
  have h2 := deleteProduct_spec exDeleteState 2 exChildA (by decide)
  have h1 := deleteProduct_spec exDeleteState 1 exParentSet (by decide)
  constructor
  · rw [h2.1 (by decide)]
    decide
  · exact h1.2.2.1 (by decide) exChildA (by decide) (by decide) (by decide)

/-! ## `updateProduct` (src/unnamed/part_005, lines 452–731) -/

/-- The products columns written by the update path for the product row
itself (lines 458–477): every listed column is replaced; `part_of_set`
and `can_be_sold_separately` only when the input defines them. -/
def productUpdateColumns (p : ProductInput) (hasSetItems : Bool)
    (r : DbProduct) : DbProduct :=
  let base : DbProduct :=
    { r with
      name := p.name
      category := p.category
      product_type := jsStrOrNone p.productType
      subcategory := jsStrOrNone p.subcategory
      description := p.description
      price_original := p.priceOriginal
      discount_percent := p.discountPercent
      price_final := storedPriceFinal p.priceOriginal p.discountPercent
      is_new := p.isNew
      tags := p.tags
      main_image_url := p.mainImageUrl
      is_set := hasSetItems }
  let base2 : DbProduct :=
    match p.partOfSet with
    | some v => { base with part_of_set := some v }
    | none => base
  match p.canBeSoldSeparately with
  | some b => { base2 with can_be_sold_separately := b }
  | none => base2

/-- One iteration of the update loop for an item that carries a
`childProductId` (lines 538–580): write the child-product columns onto
that child's row in place and replace its image rows. -/
def updateLinkedChild (st : DbState) (p : ProductInput) (setId index : Nat)
    (item : SetItem) (cid : Nat) : DbState :=
  let st1 : DbState :=
    { st with products := st.products.map (fun r =>
        if r.id = cid then childProductColumns p setId index item r else r) }
  let st2 : DbState :=
    { st1 with product_images :=
        st1.product_images.filter (fun im => im.product_id ≠ cid) }
  insertImageRows st2 cid (setItemImageUrls item)

/-- The update loop over the new set items (lines 527–620): items with
a `childProductId` update that child in place, items without one create
a fresh child; returns the final state and `childProductIdsByIndex`
(whose entries are exactly the ids the loop adds to `usedChildIds`). -/
def processSetItems (p : ProductInput) (setId : Nat) :
    DbState → Nat → List SetItem → DbState × List Nat
  | st, _, [] => (st, [])
  | st, index, item :: rest =>
    match item.childProductId with
    | some cid =>
      let st1 := updateLinkedChild st p setId index item cid
      let r2 := processSetItems p setId st1 (index + 1) rest
      (r2.1, cid :: r2.2)
    | none =>
      let c := createChild st p setId index item
      let r2 := processSetItems p setId c.1 (index + 1) rest
      (r2.1, c.2 :: r2.2)

/-- Steps 1–5 of `updateProduct`: rewrite the product row, replace its
images, drop the old set-item images and set-items rows.  (The source
reads the existing set items between steps 3 and 4; none of these steps
modifies `set_items`, so that read sees the original rows.) -/
def updateProductPre (st : DbState) (id : Nat) (p : ProductInput)
    (hasSetItems : Bool) : DbState :=
  let st1 : DbState :=
    { st with products := st.products.map (fun r =>
        if r.id = id then productUpdateColumns p hasSetItems r else r) }
  let st2 : DbState :=
    { st1 with product_images :=
        st1.product_images.filter (fun im => im.product_id ≠ id) }
  let st3 := insertImageRows st2 id (p.imageUrls.getD [])
  let existing := st3.set_items.filter (fun si => si.product_id = id)
  let st4 : DbState :=
    if existing.length > 0 then
      { st3 with set_item_images :=
          (st3.set_item_images.filter
            (fun im => ¬ im.set_item_id ∈ existing.map (fun si => si.id))) }
    else st3
  { st4 with set_items :=
      (st4.set_items.filter (fun si => si.product_id ≠ id)) }

/-- The tail of `updateProduct` on the set path: run the item loop,
insert the new set-items rows, then detach every previously linked
child id that no current item used (lines 527–678). -/
def updateProductResync (st5 : DbState) (id : Nat) (p : ProductInput)
    (items : List SetItem) (existingChildIds : List Nat) : DbState :=
  let pr := processSetItems p id st5 0 items
  let st6 := insertSetItemRows pr.1 p id items pr.2
  let removedChildIds := existingChildIds.filter (fun c => ¬ c ∈ pr.2)
  if removedChildIds.length > 0 then
    { st6 with products := st6.products.map (fun r =>
        if r.id ∈ removedChildIds then detachChildRow r else r) }
  else st6

/-- `updateProduct` (lines 452–731), store effects only: full
replace-and-resync of the product row, its images and its set items,
synchronizing child products, then detaching the no-longer-referenced
children. -/
def updateProduct (st : DbState) (id : Nat) (p : ProductInput) : DbState :=
  let items := p.setItems.getD []
  let hasSetItems : Bool := !items.isEmpty
  let st5 := updateProductPre st id p hasSetItems
  let existingChildIds := (st.set_items.filter
    (fun si => si.product_id = id)).filterMap (fun si => si.child_product_id)
  let pr := if hasSetItems then processSetItems p id st5 0 items
    else (st5, [])
  let st6 := if hasSetItems then insertSetItemRows pr.1 p id items pr.2
    else pr.1
  let removedChildIds := existingChildIds.filter (fun c => ¬ c ∈ pr.2)
  if removedChildIds.length > 0 then
    { st6 with products := st6.products.map (fun r =>
        if r.id ∈ removedChildIds then detachChildRow r else r) }
  else st6

theorem updateLinkedChild_products (st : DbState) (p : ProductInput)
    (setId index : Nat) (item : SetItem) (cid : Nat) :
    (updateLinkedChild st p setId index item cid).products =
      st.products.map (fun r =>
        if r.id = cid then childProductColumns p setId index item r else r) :=
  rfl

theorem updateLinkedChild_nextId (st : DbState) (p : ProductInput)
    (setId index : Nat) (item : SetItem) (cid : Nat) :
    (updateLinkedChild st p setId index item cid).nextId =
      st.nextId + (setItemImageUrls item).length :=
  rfl

theorem processSetItems_preserve (p : ProductInput) (setId : Nat) :
    ∀ (items : List SetItem) (st : DbState) (index : Nat) (q : DbProduct),
    q ∈ st.products →
    q.id ∉ items.filterMap (fun it => it.childProductId) →
    q ∈ (processSetItems p setId st index items).1.products := by
  intro items
  induction items with
  | nil =>
    intro st index q hq _
    exact hq
  | cons item rest ih =>
    intro st index q hq hniref
    rcases hcpi : item.childProductId with _ | cid
    · simp only [processSetItems, hcpi]
      refine ih _ (index + 1) q ?_ ?_
      · exact List.mem_append_left _ hq
      · intro hmem
        exact hniref (by simp [List.filterMap_cons, hcpi, hmem])
    · have hne : q.id ≠ cid := by
        intro h
        exact hniref (by simp [List.filterMap_cons, hcpi, h])
      simp only [processSetItems, hcpi]
      refine ih _ (index + 1) q ?_ ?_
      · rw [updateLinkedChild_products]
        exact List.mem_map.2 ⟨q, hq, by rw [if_neg hne]⟩
      · intro hmem
        exact hniref (by simp [List.filterMap_cons, hcpi, hmem])

theorem processSetItems_nextId (p : ProductInput) (setId : Nat) :
    ∀ (items : List SetItem) (st : DbState) (index : Nat),
    st.nextId ≤ (processSetItems p setId st index items).1.nextId := by
  intro items
  induction items with
  | nil =>
    intro st index
    exact le_refl _
  | cons item rest ih =>
    intro st index
    rcases hcpi : item.childProductId with _ | cid
    · simp only [processSetItems, hcpi]
      refine le_trans ?_ (ih _ (index + 1))
      show st.nextId ≤ st.nextId + 1 + (setItemImageUrls item).length
      omega
    · simp only [processSetItems, hcpi]
      refine le_trans ?_ (ih _ (index + 1))
      rw [updateLinkedChild_nextId]
      omega

theorem processSetItems_cids (p : ProductInput) (setId : Nat) :
    ∀ (items : List SetItem) (st : DbState) (index : Nat) (c : Nat),
    c ∈ (processSetItems p setId st index items).2 →
    c ∈ items.filterMap (fun it => it.childProductId) ∨ st.nextId ≤ c := by
  intro items
  induction items with
  | nil =>
    intro st index c hc
    simp [processSetItems] at hc
  | cons item rest ih =>
    intro st index c hc
    rcases hcpi : item.childProductId with _ | cid
    · simp only [processSetItems, hcpi] at hc
      rcases List.mem_cons.1 hc with h | h
      · subst h
        right
        show st.nextId ≤ st.nextId
        exact le_refl _
      · rcases ih _ (index + 1) c h with h2 | h2
        · exact Or.inl (by simp [List.filterMap_cons, hcpi, h2])
        · right
          refine le_trans ?_ h2
          show st.nextId ≤ st.nextId + 1 + (setItemImageUrls item).length
          omega
    · simp only [processSetItems, hcpi] at hc
      rcases List.mem_cons.1 hc with h | h
      · subst h
        exact Or.inl (by simp [List.filterMap_cons, hcpi])
      · rcases ih _ (index + 1) c h with h2 | h2
        · exact Or.inl (by simp [List.filterMap_cons, hcpi, h2])
        · right
          refine le_trans ?_ h2
          rw [updateLinkedChild_nextId]
          omega

theorem processSetItems_refs (p : ProductInput) (setId : Nat) :
    ∀ (items : List SetItem) (st : DbState) (index : Nat) (c : Nat),
    c ∈ items.filterMap (fun it => it.childProductId) →
    c ∈ (processSetItems p setId st index items).2 := by
  intro items
  induction items with
  | nil =>
    intro st index c hc
    simp at hc
  | cons item rest ih =>
    intro st index c hc
    rcases hcpi : item.childProductId with _ | cid
    · simp only [List.filterMap_cons, hcpi] at hc
      simp only [processSetItems, hcpi]
      exact List.mem_cons_of_mem _ (ih _ (index + 1) c hc)
    · simp only [List.filterMap_cons, hcpi] at hc
      simp only [processSetItems, hcpi]
      rcases List.mem_cons.1 hc with h | h
      · subst h
        exact List.mem_cons_self _ _
      · exact List.mem_cons_of_mem _ (ih _ (index + 1) c h)

theorem processSetItems_updated (p : ProductInput) (setId : Nat) :
    ∀ (items : List SetItem) (st : DbState) (index : Nat) (c : Nat),
    c ∈ items.filterMap (fun it => it.childProductId) →
    (∃ q ∈ st.products, q.id = c) →
    ∃ r2 ∈ (processSetItems p setId st index items).1.products,
      r2.id = c ∧ r2.part_of_set = some setId ∧ r2.is_set = false ∧
      r2.can_be_sold_separately = true := by
  intro items
  induction items with
  | nil =>
    intro st index c hc
    simp at hc
  | cons item rest ih =>
    intro st index c hc hrow
    obtain ⟨q, hq, hqid⟩ := hrow
    rcases hcpi : item.childProductId with _ | cid
    · simp only [List.filterMap_cons, hcpi] at hc
      simp only [processSetItems, hcpi]
      exact ih _ (index + 1) c hc
        ⟨q, List.mem_append_left _ hq, hqid⟩
    · simp only [processSetItems, hcpi]
      by_cases hcid : cid = c
      · subst hcid
        have hu : childProductColumns p setId index item q ∈
            (updateLinkedChild st p setId index item cid).products := by
          rw [updateLinkedChild_products]
          exact List.mem_map.2 ⟨q, hq, by rw [if_pos hqid]⟩
        by_cases hrest : cid ∈ rest.filterMap (fun it => it.childProductId)
        · exact ih _ (index + 1) cid hrest
            ⟨childProductColumns p setId index item q, hu, hqid⟩
        · refine ⟨childProductColumns p setId index item q, ?_,
            hqid, rfl, rfl, rfl⟩
          exact processSetItems_preserve p setId rest _ (index + 1) _
            (by exact hu)
            (by rw [show (childProductColumns p setId index item q).id = cid
                from hqid]; exact hrest)
      · have hcr : c ∈ rest.filterMap (fun it => it.childProductId) := by
          rcases (by simpa [List.filterMap_cons, hcpi] using hc :
              c = cid ∨ c ∈ rest.filterMap (fun it => it.childProductId)) with
            h | h
          · exact absurd h.symm hcid
          · exact h
        refine ih _ (index + 1) c hcr ⟨q, ?_, hqid⟩
        rw [updateLinkedChild_products]
        exact List.mem_map.2 ⟨q, hq, by
          rw [if_neg (by rw [hqid]; exact fun h => hcid h.symm)]⟩

theorem updateProductResync_spec (st5 : DbState) (setId : Nat)
    (p : ProductInput) (items : List SetItem) (prevIds : List Nat) (c : Nat)
    (hrow : ∃ q ∈ st5.products, q.id = c) :
    (c ∈ prevIds → c < st5.nextId →
      c ∉ items.filterMap (fun it => it.childProductId) →
      ∃ r2 ∈ (updateProductResync st5 setId p items prevIds).products,
        r2.id = c ∧ r2.part_of_set = none ∧ r2.is_set = false ∧
        r2.can_be_sold_separately = true) ∧
    (c ∈ items.filterMap (fun it => it.childProductId) →
      ∃ r2 ∈ (updateProductResync st5 setId p items prevIds).products,
        r2.id = c ∧ r2.part_of_set = some setId) := by
  constructor
  · intro hprev hlt hnref
    obtain ⟨q, hq, hqid⟩ := hrow
    have hnpr2 : c ∉ (processSetItems p setId st5 0 items).2 := by
      intro hmem
      rcases processSetItems_cids p setId items st5 0 c hmem with h | h
      · exact hnref h
      · omega
    have hremoved : c ∈ prevIds.filter
        (fun c2 => ¬ c2 ∈ (processSetItems p setId st5 0 items).2) :=
      List.mem_filter.2 ⟨hprev, by simpa using hnpr2⟩
    have hq6 : q ∈ (insertSetItemRows (processSetItems p setId st5 0 items).1
        p setId items (processSetItems p setId st5 0 items).2).products :=
      processSetItems_preserve p setId items st5 0 q hq
        (by rw [hqid]; exact hnref)
    have hqidmem : q.id ∈ prevIds.filter
        (fun c2 => ¬ c2 ∈ (processSetItems p setId st5 0 items).2) := by
      rw [hqid]; exact hremoved
    simp only [updateProductResync]
    rw [if_pos (List.length_pos.2 (List.ne_nil_of_mem hremoved))]
    refine ⟨detachChildRow q, ?_, hqid, rfl, rfl, rfl⟩
    exact List.mem_map.2 ⟨q, hq6, by rw [if_pos hqidmem]⟩
  · intro href
    obtain ⟨q, hq, hqid⟩ := hrow
    obtain ⟨r2, hr2mem, hr2id, hr2part, hr2set, hr2sep⟩ :=
      processSetItems_updated p setId items st5 0 c href ⟨q, hq, hqid⟩
    have hinpr2 : c ∈ (processSetItems p setId st5 0 items).2 :=
      processSetItems_refs p setId items st5 0 c href
    have hr2mem6 : r2 ∈ (insertSetItemRows
        (processSetItems p setId st5 0 items).1 p setId items
        (processSetItems p setId st5 0 items).2).products := hr2mem
    have hr2nrem : r2.id ∉ prevIds.filter
        (fun c2 => ¬ c2 ∈ (processSetItems p setId st5 0 items).2) := by
      intro hmem
      have h2 := (List.mem_filter.1 hmem).2
      rw [hr2id] at h2
      simp [hinpr2] at h2
    simp only [updateProductResync]
    by_cases hlen : 0 < (prevIds.filter
        (fun c2 => ¬ c2 ∈ (processSetItems p setId st5 0 items).2)).length
    · rw [if_pos hlen]
      refine ⟨r2, ?_, hr2id, hr2part⟩
      exact List.mem_map.2 ⟨r2, hr2mem6, by rw [if_neg hr2nrem]⟩
    · rw [if_neg hlen]
      exact ⟨r2, hr2mem6, hr2id, hr2part⟩

theorem updateProductPre_products (st : DbState) (id : Nat)
    (p : ProductInput) (b : Bool) :
    (updateProductPre st id p b).products =
      st.products.map (fun r =>
        if r.id = id then productUpdateColumns p b r else r) := by
  simp only [updateProductPre]
  split <;> rfl

theorem updateProductPre_nextId (st : DbState) (id : Nat)
    (p : ProductInput) (b : Bool) :
    (updateProductPre st id p b).nextId =
      st.nextId + (p.imageUrls.getD []).length := by
  simp only [updateProductPre]
  split <;> rfl

theorem productUpdateColumns_id (p : ProductInput) (b : Bool)
    (r : DbProduct) : (productUpdateColumns p b r).id = r.id := by
  rcases hpo : p.partOfSet with _ | v <;>
    rcases hcs : p.canBeSoldSeparately with _ | b2 <;>
      simp [productUpdateColumns, hpo, hcs]


/-- `updateProduct` in terms of its resync tail, for any input (when
the input carries no set items the loop is vacuous and the two sides
agree up to empty inserts). -/
theorem updateProduct_eq_resync (st : DbState) (id : Nat)
    (p : ProductInput) :
    updateProduct st id p =
      updateProductResync
        (updateProductPre st id p (!(p.setItems.getD []).isEmpty))
        id p (p.setItems.getD [])
        ((st.set_items.filter (fun si => si.product_id = id)).filterMap
          (fun si => si.child_product_id)) := by
  rcases hsi : p.setItems with _ | items
  · simp only [updateProduct, updateProductResync, hsi, Option.getD_none,
      List.isEmpty_nil, Bool.not_true, Bool.false_eq_true, if_false,
      processSetItems]
    simp [insertSetItemRows]
  · rcases items with _ | ⟨it0, rest⟩
    · simp only [updateProduct, updateProductResync, hsi, Option.getD_some,
        List.isEmpty_nil, Bool.not_true, Bool.false_eq_true, if_false,
        processSetItems]
      simp [insertSetItemRows]
    · obtain ⟨nm, cat, pt, sc, iss, pos, cbs, dsc, po, dp, isn, tg, mi, iu,
        si⟩ := p
      simp only at hsi
      subst hsi
      rfl

/-- C3: on update, every child product id linked from the product's
previous set items but referenced by no set item in the new input is
reset (`part_of_set` cleared, `is_set` false, `can_be_sold_separately`
true) while its row survives; a child id still referenced by a current
set item keeps `part_of_set` pointing at the set.  (`c < st.nextId`
says `c` is an id the store has already assigned, and the row for `c`
must exist to speak about it.) -/
theorem updateProduct_detach_spec (st : DbState) (setId : Nat)
    (p : ProductInput) (c : Nat)
    (hprev : c ∈ (st.set_items.filter
        (fun si => si.product_id = setId)).filterMap
        (fun si => si.child_product_id))
    (hrow : ∃ q ∈ st.products, q.id = c)
    (hcnt : c < st.nextId) :
    (c ∉ (p.setItems.getD []).filterMap (fun it => it.childProductId) →
      ∃ r2 ∈ (updateProduct st setId p).products,
        r2.id = c ∧ r2.part_of_set = none ∧ r2.is_set = false ∧
        r2.can_be_sold_separately = true) ∧
    (c ∈ (p.setItems.getD []).filterMap (fun it => it.childProductId) →
      ∃ r2 ∈ (updateProduct st setId p).products,
        r2.id = c ∧ r2.part_of_set = some setId) := by
  rw [updateProduct_eq_resync]
  obtain ⟨q, hq, hqid⟩ := hrow
  have hrow5 : ∃ q2 ∈ (updateProductPre st setId p
      (!(p.setItems.getD []).isEmpty)).products, q2.id = c := by
    rw [updateProductPre_products]
    refine ⟨_, List.mem_map_of_mem _ hq, ?_⟩
    by_cases h : q.id = setId
    · rw [if_pos h, productUpdateColumns_id]
      exact hqid
    · rw [if_neg h]
      exact hqid
  have hspec := updateProductResync_spec
    (updateProductPre st setId p (!(p.setItems.getD []).isEmpty)) setId p
    (p.setItems.getD [])
    ((st.set_items.filter (fun si => si.product_id = setId)).filterMap
      (fun si => si.child_product_id)) c hrow5
  refine ⟨fun hnref => hspec.1 hprev ?_ hnref, hspec.2⟩
  rw [updateProductPre_nextId]
  omega

/-- The update input used by the C3 witness: it keeps a single set item
that is linked to child product 2 and drops the item linked to 3. -/
def exUpdInput : ProductInput :=
  { name := "Set", category := "floor_sample", productType := none,
    subcategory := none, isSet := true, partOfSet := none,
    canBeSoldSeparately := none, description := "", priceOriginal := 0,
    discountPercent := 0, isNew := false, tags := [], mainImageUrl := "m",
    imageUrls := none,
    setItems := some
      [{ id := 0, name := "A", price := 1, imageUrl := none,
         imageUrls := none, childProductId := some 2 }] }

/-- Witness for C3 at the concrete fixture: editing set 1 down to the
single item linked to child 2 resets child 3 (kept as a row, detached)
and leaves child 2 linked. -/
theorem updateProduct_detach_spec_witness :
    (∃ r2 ∈ (updateProduct exDeleteState 1 exUpdInput).products,
      r2.id = 3 ∧ r2.part_of_set = none ∧ r2.is_set = false ∧
      r2.can_be_sold_separately = true) ∧
    (∃ r2 ∈ (updateProduct exDeleteState 1 exUpdInput).products,
      r2.id = 2 ∧ r2.part_of_set = some 1) := by
  have h3 := updateProduct_detach_spec exDeleteState 1 exUpdInput 3
    (by decide) ⟨exChildB, by decide, rfl⟩ (by decide)
  have h2 := updateProduct_detach_spec exDeleteState 1 exUpdInput 2
    (by decide) ⟨exChildA, by decide, rfl⟩ (by decide)
  exact ⟨h3.1 (by decide), h2.2 (by decide)⟩
